import Mathlib

/-!
Verification development for the real-time collaboration tool (`src/main.go`),
a WebSocket fan-out hub built on `gorilla/websocket`.

The embedding is shallow:

* A `Client` (the Go struct `Client` holding a `*websocket.Conn`) is identified
  by a natural-number id, since clients are compared by pointer identity only.
* The global registry `clients` (`map[*Client]bool`, line 26) is a duplicate-free
  list of client ids; Go map insertion (`clients[client] = true`, line 42) and
  deletion (`delete(clients, client)`, lines 50 and 69) become `regAdd` and
  `regRemove`.
* One iteration of the broadcaster loop `handleMessages` (lines 60-72) —
  receive one message, then write it to every registered client, logging the
  error, closing and deleting the client on a write failure — becomes
  `broadcastRound`, parameterised by which clients' writes fail.
* The upgrade branch of `handleConnections` (lines 34-37) becomes
  `handleUpgrade`; `log.Fatal(err)` terminates the whole process.
* The unsynchronized concurrent map insertion performed by two
  `handleConnections` goroutines is given a fine-grained two-step
  (read-then-write) semantics in `TwoAddState` / `addStep`.
-/

namespace RTC

/-- A client, identified by the identity of its `*websocket.Conn` handle. -/
abbrev Client := Nat

/-- A message payload: `[]byte` read from the socket, uninterpreted. -/
abbrev Msg := String

/-- `websocket.TextMessage` frame-type constant of gorilla/websocket. -/
def TextMessage : Nat := 1

/-- `websocket.BinaryMessage` frame-type constant of gorilla/websocket. -/
def BinaryMessage : Nat := 2

/-- A WebSocket data frame: a frame type together with a payload. -/
structure Frame where
  ftype : Nat
  data : Msg
deriving DecidableEq, Repr

/-- Go map insertion `clients[client] = true` (main.go line 42): if the key is
already present its value is overwritten (no change, the value is always
`true`); otherwise the key is added. -/
def regAdd (c : Client) (l : List Client) : List Client :=
  if c ∈ l then l else l ++ [c]

/-- Go map deletion `delete(clients, client)` (main.go lines 50 and 69):
removes the key if present, does nothing otherwise, and never reports an
error. -/
def regRemove (c : Client) (l : List Client) : List Client :=
  l.erase c

/-- Result of `upgrader.Upgrade(w, r, nil)` (main.go line 34). -/
inductive UpgradeResult where
  | ok (c : Client)
  | err
deriving DecidableEq

/-- What the `handleConnections` upgrade branch does to the process. -/
inductive UpgradeOutcome where
  /-- `log.Fatal(err)` logs the error and calls `os.Exit(1)`: the whole
  process terminates. -/
  | processTerminated
  /-- The upgrade succeeded; the handler proceeds with this connection. -/
  | proceed (c : Client)
deriving DecidableEq

/-- The upgrade branch of `handleConnections` (main.go lines 34-37):
`if err != nil { log.Fatal(err) }`. -/
def handleUpgrade : UpgradeResult → UpgradeOutcome
  | .err => .processTerminated
  | .ok c => .proceed c

/-- The read step of the per-connection loop (main.go line 47):
`_, msg, err := ws.ReadMessage()` discards the received frame type and
forwards only the payload to the broadcast channel (line 54). -/
def workerPublish (f : Frame) : Msg :=
  f.data

/-- The frame written by `client.conn.WriteMessage(websocket.TextMessage, msg)`
(main.go line 65). -/
def writeFrame (m : Msg) : Frame :=
  ⟨TextMessage, m⟩

/-- Observable outcome of one broadcaster iteration: the frames successfully
written (recipient paired with the frame), the registry contents after the
iteration, and the clients whose write error was logged (`log.Printf`,
line 67). `handleMessages` returns nothing to anybody: errors end up in
`logged` only. -/
structure RoundResult where
  delivered : List (Client × Frame)
  registry : List Client
  logged : List Client
deriving DecidableEq, Repr

/-- One iteration of `handleMessages` (main.go lines 62-71) on a registry,
parameterised by which clients' `WriteMessage` calls fail: for each registered
client in turn, attempt the write; on failure log the error, close the
connection and delete the client from the registry; then continue with the
remaining clients. -/
def broadcastRound (fails : Client → Bool) (msg : Msg) : List Client → RoundResult
  | [] => ⟨[], [], []⟩
  | c :: cs =>
    let r := broadcastRound fails msg cs
    if fails c then ⟨r.delivered, r.registry, c :: r.logged⟩
    else ⟨(c, writeFrame msg) :: r.delivered, c :: r.registry, r.logged⟩

/-- The registry mutations the program performs (spec §3): `handleConnections`
adds a client on accept (line 42) and removes it on read failure (line 50);
`handleMessages` removes it on write failure (line 69). -/
inductive Event where
  | accept (c : Client)
  | readFail (c : Client)
  | writeFail (c : Client)

/-- Effect of one registry mutation on the `clients` map. -/
def step (reg : List Client) : Event → List Client
  | .accept c => regAdd c reg
  | .readFail c => regRemove c reg
  | .writeFail c => regRemove c reg

/-- Registry contents after a sequence of mutations. -/
def runEvents (reg : List Client) : List Event → List Client
  | [] => reg
  | e :: es => runEvents (step reg e) es

/-- Whether client `c` is eligible to receive broadcasts after the events:
`b` says whether it was eligible initially; an accept of `c` makes it
eligible, a read or write failure of `c` makes it ineligible, events about
other clients do not affect it. -/
def eligibleAfter (b : Bool) (c : Client) : List Event → Bool
  | [] => b
  | .accept d :: es => eligibleAfter (if d = c then true else b) c es
  | .readFail d :: es => eligibleAfter (if d = c then false else b) c es
  | .writeFail d :: es => eligibleAfter (if d = c then false else b) c es

/-- Capacity of the broadcast channel: `make(chan []byte)` (main.go line 29)
creates an unbuffered channel. -/
def broadcastChanCapacity : Nat := 0

/-- Whether a Go channel send (`broadcast <- msg`, main.go line 54) completes
without suspending the sending goroutine: it does iff a receiver is already
blocked on the channel, or the buffer has free space. Otherwise the sender
blocks until a receiver arrives. -/
def sendCompletesImmediately (cap pending : Nat) (receiverWaiting : Bool) : Bool :=
  receiverWaiting || decide (pending < cap)

/-- Enqueueing a message for broadcast: the send on an open channel is never
rejected and never returns an error; once it completes the message is in the
queue. -/
def publish (q : List Msg) (m : Msg) : List Msg :=
  q ++ [m]

/-- Memory-level state of two `handleConnections` goroutines concurrently
executing `clients[client] = true` on the shared, unsynchronized map:
each insertion reads the current map contents and writes back updated
contents, with no lock held between the two steps. `snap1`/`snap2` are the
contents each goroutine observed at its read. -/
structure TwoAddState where
  shared : List Client
  snap1 : List Client
  snap2 : List Client
deriving DecidableEq, Repr

/-- The four micro-steps of the two concurrent insertions. -/
inductive AddStep where
  | read1
  | write1
  | read2
  | write2

/-- Execute one micro-step: goroutine 1 inserts `a`, goroutine 2 inserts `b`. -/
def addStep (a b : Client) (s : TwoAddState) : AddStep → TwoAddState
  | .read1 => { s with snap1 := s.shared }
  | .write1 => { s with shared := regAdd a s.snap1 }
  | .read2 => { s with snap2 := s.shared }
  | .write2 => { s with shared := regAdd b s.snap2 }

/-- Execute a schedule (interleaving) of micro-steps. -/
def runSched (a b : Client) (s : TwoAddState) : List AddStep → TwoAddState
  | [] => s
  | st :: rest => runSched a b (addStep a b s st) rest

/-- The broadcaster loop of `handleMessages` processing an entire intake
queue: each queue entry is a source client paired with its message payload
(the channel preserves arrival order, a single consumer dequeues); each
dequeued message is broadcast with `broadcastRound`, the registry resulting
from one round feeding the next. Each successful write is recorded as
(recipient, source of the message, frame written). -/
def runQueue (fails : Client → Bool) (reg : List Client) :
    List (Client × Msg) → List (Client × Client × Frame)
  | [] => []
  | (src, m) :: q =>
    let r := broadcastRound fails m reg
    r.delivered.map (fun p => (p.1, src, p.2)) ++ runQueue fails r.registry q

/-- The payloads client `rcpt` receives from client `src`, in delivery
order, over a whole queue run. -/
def receivedFrom (rcpt src : Client) (fails : Client → Bool) (reg : List Client)
    (q : List (Client × Msg)) : List Msg :=
  ((runQueue fails reg q).filter (fun t => t.1 == rcpt && t.2.1 == src)).map
    (fun t => t.2.2.data)

/-! ### Basic registry lemmas -/

theorem mem_regAdd {a c : Client} {l : List Client} :
    a ∈ regAdd c l ↔ a = c ∨ a ∈ l := by
  unfold regAdd
  split
  · rename_i h
    constructor
    · exact Or.inr
    · rintro (rfl | ha)
      · exact h
      · exact ha
  · simp [List.mem_append, or_comm]

theorem regAdd_of_mem {c : Client} {l : List Client} (h : c ∈ l) :
    regAdd c l = l :=
  if_pos h

theorem nodup_regAdd {c : Client} {l : List Client} (h : l.Nodup) :
    (regAdd c l).Nodup := by
  unfold regAdd
  split
  · exact h
  · rename_i hc
    simp [List.nodup_append, h, hc]

/-! ### Broadcast round structure lemmas -/

theorem round_delivered (fails : Client → Bool) (msg : Msg) :
    ∀ l : List Client, (broadcastRound fails msg l).delivered =
      (l.filter (fun d => !fails d)).map (fun d => (d, writeFrame msg))
  | [] => rfl
  | c :: cs => by
    simp only [broadcastRound, List.filter_cons]
    cases h : fails c <;>
      simp [h, round_delivered fails msg cs]

theorem round_registry (fails : Client → Bool) (msg : Msg) :
    ∀ l : List Client, (broadcastRound fails msg l).registry =
      l.filter (fun d => !fails d)
  | [] => rfl
  | c :: cs => by
    simp only [broadcastRound, List.filter_cons]
    cases h : fails c <;>
      simp [h, round_registry fails msg cs]

theorem round_logged (fails : Client → Bool) (msg : Msg) :
    ∀ l : List Client, (broadcastRound fails msg l).logged = l.filter fails
  | [] => rfl
  | c :: cs => by
    simp only [broadcastRound, List.filter_cons]
    cases h : fails c <;>
      simp [h, round_logged fails msg cs]

/-! ### Registry trace lemmas -/

theorem decide_mem_regAdd (c d : Client) (l : List Client) :
    decide (c ∈ regAdd d l) = if d = c then true else decide (c ∈ l) := by
  by_cases h : d = c
  · subst h
    simp [mem_regAdd]
  · rw [if_neg h]
    apply decide_eq_decide.mpr
    rw [mem_regAdd]
    exact or_iff_right_iff_imp.mpr (fun hc => absurd hc.symm h)

theorem decide_mem_erase {l : List Client} (hnd : l.Nodup) (c d : Client) :
    decide (c ∈ l.erase d) = if d = c then false else decide (c ∈ l) := by
  by_cases h : d = c
  · subst h
    simp [hnd.not_mem_erase]
  · rw [if_neg h]
    apply decide_eq_decide.mpr
    rw [hnd.mem_erase_iff]
    exact and_iff_right_iff_imp.mpr (fun _ hc => h hc.symm)

theorem runEvents_mem_nodup (c : Client) :
    ∀ (es : List Event) (l : List Client), l.Nodup →
      ((c ∈ runEvents l es ↔ eligibleAfter (decide (c ∈ l)) c es = true) ∧
        (runEvents l es).Nodup)
  | [], l, h => ⟨decide_eq_true_iff.symm, h⟩
  | .accept d :: es, l, h => by
    have ih := runEvents_mem_nodup c es (regAdd d l) (nodup_regAdd h)
    simpa [runEvents, step, eligibleAfter, decide_mem_regAdd c d l] using ih
  | .readFail d :: es, l, h => by
    have ih := runEvents_mem_nodup c es (regRemove d l) (h.erase d)
    simpa [runEvents, step, eligibleAfter, regRemove, decide_mem_erase h c d] using ih
  | .writeFail d :: es, l, h => by
    have ih := runEvents_mem_nodup c es (regRemove d l) (h.erase d)
    simpa [runEvents, step, eligibleAfter, regRemove, decide_mem_erase h c d] using ih

/-- A registry in which exactly one present client fails keeps its write-failure
log to that one client. -/
theorem filter_eq_single (fails : Client → Bool) :
    ∀ (l : List Client), l.Nodup → ∀ c ∈ l, fails c = true →
      (∀ d ∈ l, d ≠ c → fails d = false) → l.filter fails = [c]
  | [], _, c, hc, _, _ => absurd hc (List.not_mem_nil c)
  | a :: t, hnd, c, hc, hf, honly => by
    have hat : a ∉ t := (List.nodup_cons.mp hnd).1
    have hnt : t.Nodup := (List.nodup_cons.mp hnd).2
    rcases List.mem_cons.mp hc with rfl | hct
    · rw [List.filter_cons, if_pos (by simp [hf])]
      have : t.filter fails = [] := by
        rw [List.filter_eq_nil_iff]
        intro d hd
        simp [honly d (List.mem_cons_of_mem c hd) (fun hdc => hat (hdc ▸ hd))]
      rw [this]
    · have hac : a ≠ c := fun h => hat (h ▸ hct)
      rw [List.filter_cons, if_neg (by simp [honly a (List.mem_cons_self a t) hac])]
      exact filter_eq_single fails t hnt c hct hf
        (fun d hd hdc => honly d (List.mem_cons_of_mem a hd) hdc)

theorem count_pair_map (k : Frame) :
    ∀ (l : List Client) (c : Client),
      (l.map (fun d => (d, k))).count (c, k) = l.count c
  | [], _ => rfl
  | a :: t, c => by
    have h : (((c, k) : Client × Frame) == (a, k)) = (c == a) := by
      show (c == a && (k == k)) = (c == a)
      simp
    simp [List.count_cons, count_pair_map k t c, h]

theorem count_one_of_nodup :
    ∀ (l : List Client), l.Nodup → ∀ c ∈ l, l.count c = 1
  | [], _, c, hc => absurd hc (List.not_mem_nil c)
  | a :: t, hnd, c, hc => by
    have hat : a ∉ t := (List.nodup_cons.mp hnd).1
    have hnt : t.Nodup := (List.nodup_cons.mp hnd).2
    rcases List.mem_cons.mp hc with rfl | hct
    · have h0 : t.count c = 0 := List.count_eq_zero.mpr hat
      simp [List.count_cons, h0]
    · have hca : c ≠ a := fun h => hat (h ▸ hct)
      simp [List.count_cons, hca, count_one_of_nodup t hnt c hct]

/-! ### Queue-run lemmas -/

theorem filter_fst_map (k : Frame) (r : Client) :
    ∀ l : List Client,
      (l.map (fun d => (d, k))).filter (fun p => p.1 == r) =
        (l.filter (fun d => d == r)).map (fun d => (d, k))
  | [] => rfl
  | a :: t => by
    simp only [List.map_cons, List.filter_cons]
    cases h : (a == r) <;> simp [h, filter_fst_map k r t]

theorem filter_beq_self_of_nodup {l : List Client} (hnd : l.Nodup) {r : Client}
    (hr : r ∈ l) : l.filter (fun d => d == r) = [r] :=
  filter_eq_single (fun d => d == r) l hnd r hr (by simp)
    (fun d _ hdr => by simp [hdr])

theorem round_delivered_filter_self (fails : Client → Bool) (m : Msg)
    {l : List Client} {r : Client} (hnd : l.Nodup) (hr : r ∈ l)
    (hf : fails r = false) :
    (broadcastRound fails m l).delivered.filter (fun p => p.1 == r) =
      [(r, writeFrame m)] := by
  rw [round_delivered, filter_fst_map]
  rw [filter_beq_self_of_nodup (hnd.filter _)
    (List.mem_filter.mpr ⟨hr, by simp [hf]⟩)]
  rfl

theorem filter_tag (rcpt src s : Client) :
    ∀ dl : List (Client × Frame),
      (dl.map (fun p => (p.1, s, p.2))).filter
          (fun t => t.1 == rcpt && t.2.1 == src) =
        if s == src then
          (dl.filter (fun p => p.1 == rcpt)).map (fun p => (p.1, s, p.2))
        else []
  | [] => by cases h : (s == src) <;> simp [h]
  | p :: dl => by
    cases h : (s == src) <;> cases h2 : (p.1 == rcpt) <;>
      simp [List.filter_cons, h, h2, filter_tag rcpt src s dl]

/-! ### Claim theorems -/

/-- C1: the claim says an upgrade failure is reported to the HTTP-layer caller
for that request only and the server keeps serving. The code (main.go line 36)
instead calls `log.Fatal(err)`, which terminates the entire process: evaluating
the upgrade branch at a failed upgrade yields process termination. -/
theorem upgrade_failure_terminates_process :
    handleUpgrade .err = .processTerminated :=
  rfl

/-- C8: removing a client that is not in the registry is a no-op — the registry
is unchanged, and `delete` on a Go map reports no error (the operation is a
total function in the model). -/
theorem remove_absent_noop (c : Client) (l : List Client) (h : c ∉ l) :
    regRemove c l = l :=
  List.erase_of_not_mem h

/-- Witness for C8 at a concrete input: removing absent client 4 from registry
[1, 2, 3] leaves it unchanged. -/
theorem remove_absent_noop_witness :
    regRemove 4 [1, 2, 3] = [1, 2, 3] :=
  remove_absent_noop 4 [1, 2, 3] (by decide)

/-- C9: adding a client twice leaves the registry exactly as after a single
add (Go map insertion of a present key overwrites the value `true` with
`true`), and the operation produces no error (it is a total function). -/
theorem add_idempotent (c : Client) (l : List Client) :
    regAdd c (regAdd c l) = regAdd c l :=
  regAdd_of_mem (mem_regAdd.mpr (Or.inl rfl))

/-- C6 counterexample: `Publish` is the channel send `broadcast <- msg` on the
unbuffered channel `make(chan []byte)`; at the concrete state where no receiver
is blocked on the channel (the broadcaster is mid-round) and nothing is
buffered, the send does not complete immediately — the caller blocks, refuting
"non-blocking from the caller's perspective". -/
theorem publish_nonblocking_counterexample :
    sendCompletesImmediately broadcastChanCapacity 0 false = false := by
  decide

/-- C6 amended: `Publish` never fails — the enqueue is never rejected and every
message is appended to the queue once the send completes — but it is blocking:
on the capacity-0 broadcast channel the send completes immediately exactly when
the broadcaster is already waiting to receive, and otherwise suspends the
caller. -/
theorem publish_total_but_blocking :
    (∀ (q : List Msg) (m : Msg), publish q m = q ++ [m]) ∧
    (∀ (p : Nat) (w : Bool), sendCompletesImmediately broadcastChanCapacity p w = w) := by
  refine ⟨fun q m => rfl, fun p w => ?_⟩
  cases w <;> simp [sendCompletesImmediately, broadcastChanCapacity]

/-- C4: along any sequence of the registry mutations the program performs
(add on accept, remove on read failure, remove on write failure), starting
from the program's initial empty registry, every client appears at most once
(`Nodup`), and a client is a member exactly when it is currently eligible to
receive broadcasts — accepted, with no read or write failure since. -/
theorem registry_invariant (es : List Event) (c : Client) :
    (c ∈ runEvents [] es ↔ eligibleAfter false c es = true) ∧
    (runEvents [] es).Nodup := by
  simpa using runEvents_mem_nodup c es [] List.nodup_nil

/-- C2: in a broadcast round over a duplicate-free registry where exactly the
present client `c` has a failing write, removal hits exactly `c` (the
post-round registry is the original with `c` erased, and `c` is gone), every
other registered client still receives the message's frame, and the only error
is the one logged for `c` — `handleMessages` returns nothing to the sender. -/
theorem broadcast_write_failure_isolated (fails : Client → Bool) (msg : Msg)
    (l : List Client) (c : Client) (hnd : l.Nodup) (hc : c ∈ l)
    (hf : fails c = true) (honly : ∀ d ∈ l, d ≠ c → fails d = false) :
    (broadcastRound fails msg l).registry = l.erase c ∧
    c ∉ (broadcastRound fails msg l).registry ∧
    (∀ d ∈ l, d ≠ c → (d, writeFrame msg) ∈ (broadcastRound fails msg l).delivered) ∧
    (broadcastRound fails msg l).logged = [c] := by
  refine ⟨?_, ?_, ?_, ?_⟩
  · rw [round_registry, hnd.erase_eq_filter]
    apply List.filter_congr
    intro d hd
    by_cases hdc : d = c
    · subst hdc
      simp [hf]
    · simp [honly d hd hdc, hdc]
  · rw [round_registry]
    simp [List.mem_filter, hf]
  · intro d hd hdc
    rw [round_delivered]
    refine List.mem_map.mpr ⟨d, List.mem_filter.mpr ⟨hd, ?_⟩, rfl⟩
    simp [honly d hd hdc]
  · rw [round_logged]
    exact filter_eq_single fails l hnd c hc hf honly

/-- Witness for C2 at a concrete input: registry [1, 2, 3], the write to
client 2 fails; clients 1 and 3 still get the frame, the registry loses
exactly client 2, and only client 2's error is logged. -/
theorem broadcast_write_failure_isolated_witness :
    (broadcastRound (fun d => d == 2) "m" [1, 2, 3]).registry = [1, 2, 3].erase 2 ∧
    (2 : Client) ∉ (broadcastRound (fun d => d == 2) "m" [1, 2, 3]).registry ∧
    ((1 : Client), writeFrame "m") ∈ (broadcastRound (fun d => d == 2) "m" [1, 2, 3]).delivered ∧
    ((3 : Client), writeFrame "m") ∈ (broadcastRound (fun d => d == 2) "m" [1, 2, 3]).delivered ∧
    (broadcastRound (fun d => d == 2) "m" [1, 2, 3]).logged = [2] := by
  have h := broadcast_write_failure_isolated (fun d => d == 2) "m" [1, 2, 3] 2
    (by decide) (by decide) (by decide) (by decide)
  exact ⟨h.1, h.2.1, h.2.2.1 1 (by decide) (by decide), h.2.2.1 3 (by decide) (by decide),
    h.2.2.2⟩

/-- C3 counterexample: `handleMessages` iterates over the whole `clients` map,
which still contains the sender; with C1, C2, C3 connected (registry
[1, 2, 3], no failing writes) and C1's message "hello" dequeued, client 1 —
the sender — receives the frame, contradicting "C1 receives nothing". -/
theorem no_self_echo_counterexample :
    (1, writeFrame "hello") ∈
      (broadcastRound (fun _ => false) "hello" [1, 2, 3]).delivered := by
  decide

/-- C3 amended: when a message is broadcast, every currently-connected client
— the sender included (self-echo) — receives exactly one copy of its frame. -/
theorem broadcast_delivers_once_to_each (l : List Client) (msg : Msg)
    (c : Client) (hnd : l.Nodup) (hc : c ∈ l) :
    ((broadcastRound (fun _ => false) msg l).delivered).count (c, writeFrame msg) = 1 := by
  rw [round_delivered]
  have hfilter : l.filter (fun d => !(fun _ : Client => false) d) = l := by
    simp
  rw [hfilter]
  rw [count_pair_map (writeFrame msg) l c]
  exact count_one_of_nodup l hnd c hc

/-- Witness for C3's amended claim at the spec's concrete scenario: clients
1, 2, 3 connected, "hello" broadcast; client 2 receives exactly one copy
(and by the same theorem so do clients 1 and 3). -/
theorem broadcast_delivers_once_to_each_witness :
    ((broadcastRound (fun _ => false) "hello" [1, 2, 3]).delivered).count
      (2, writeFrame "hello") = 1 :=
  broadcast_delivers_once_to_each [1, 2, 3] "hello" 2 (by decide) (by decide)

/-- C10: every frame a broadcast round writes carries frame type
`websocket.TextMessage`, whatever the frame type of the sender's inbound
frame was: `ReadMessage`'s frame type is discarded at line 47 and
`WriteMessage` is always called with `websocket.TextMessage` at line 65;
the payload is forwarded unchanged. -/
theorem delivered_frames_are_text (fails : Client → Bool) (l : List Client)
    (f : Frame) (p : Client × Frame)
    (hp : p ∈ (broadcastRound fails (workerPublish f) l).delivered) :
    p.2.ftype = TextMessage ∧ p.2.data = f.data := by
  rw [round_delivered] at hp
  obtain ⟨d, _, rfl⟩ := List.mem_map.mp hp
  exact ⟨rfl, rfl⟩

/-- Witness for C10 at a concrete input: a binary inbound frame with payload
"b" from the sender is delivered to registered client 5 as a text frame with
the same payload. -/
theorem delivered_frames_are_text_witness :
    (writeFrame "b").ftype = TextMessage ∧
    (writeFrame "b").data = (Frame.mk BinaryMessage "b").data :=
  delivered_frames_are_text (fun _ => false) [5] (Frame.mk BinaryMessage "b")
    (5, writeFrame "b") (by decide)

/-- C5: per-source ordering is preserved end-to-end. For every intake queue
(whose per-source subsequence is the order that source sent, since each
worker publishes its messages in read order and the channel is FIFO), a
recipient that is registered and whose writes do not fail receives the
messages of any single source exactly in the source's relative order: its
received-from-`src` payload list equals the queue's `src`-subsequence. -/
theorem per_source_ordering (fails : Client → Bool) (src rcpt : Client) :
    ∀ (q : List (Client × Msg)) (reg : List Client), reg.Nodup → rcpt ∈ reg →
      fails rcpt = false →
      receivedFrom rcpt src fails reg q =
        (q.filter (fun p => p.1 == src)).map (fun p => p.2)
  | [], _, _, _, _ => rfl
  | (s, m) :: q, reg, hnd, hr, hf => by
    have hself := round_delivered_filter_self fails m hnd hr hf
    have hnd' : (broadcastRound fails m reg).registry.Nodup := by
      rw [round_registry]
      exact hnd.filter _
    have hr' : rcpt ∈ (broadcastRound fails m reg).registry := by
      rw [round_registry]
      exact List.mem_filter.mpr ⟨hr, by simp [hf]⟩
    have ih := per_source_ordering fails src rcpt q
      (broadcastRound fails m reg).registry hnd' hr' hf
    unfold receivedFrom at ih ⊢
    cases h : (s == src) <;>
      simp [runQueue, List.filter_append, List.filter_cons, filter_tag, h,
        hself, ih, writeFrame]

/-- Witness for C5 at a concrete input: registry [1, 2], no write failures,
queue [(1, "a"), (2, "x"), (1, "b")]; client 2 receives exactly ["a", "b"]
from client 1, the order client 1 sent. -/
theorem per_source_ordering_witness :
    receivedFrom 2 1 (fun _ => false) [1, 2]
      [(1, "a"), (2, "x"), (1, "b")] = ["a", "b"] := by
  rw [per_source_ordering (fun _ => false) 1 2 [(1, "a"), (2, "x"), (1, "b")]
    [1, 2] (by decide) (by decide) rfl]
  rfl

/-- C7: with the unsynchronized global map, the interleaving in which both
`handleConnections` goroutines read the map contents before either writes
loses one registration: starting from the empty registry, goroutine 1 adds
client 1 and goroutine 2 adds client 2, both complete, yet the final registry
is [2] and client 1 is missing — the member set is corrupted, unlike the
sequential outcome [1, 2]. (The Go runtime may also abort the process with
"concurrent map writes"; the model shows the lost update.) -/
theorem unsync_add_lost_update :
    (runSched 1 2 ⟨[], [], []⟩ [.read1, .read2, .write1, .write2]).shared = [2] ∧
    (1 : Client) ∉ (runSched 1 2 ⟨[], [], []⟩ [.read1, .read2, .write1, .write2]).shared ∧
    regAdd 2 (regAdd 1 []) = [1, 2] := by
  decide

end RTC
